import Mathlib

set_option maxRecDepth 100000

/-!
Verification of the CollecTF selenium PSFM downloader
(`download_tf_family_psfms.py`) against its natural-language
specification.  The Python source is shallowly embedded: dictionaries
become association lists with Python's insert-or-update semantics,
exceptions become `Except` values or explicit behaviour tags at the
points where the source can raise, and machine integers are `Nat`
with explicit `% 2 ^ 32` where overflow matters (the MD5 digest used
for artifact filenames).  Wall-clock timestamps stored by the source
are not modelled; no claim refers to them.
-/

namespace CollecTF

/-! ## Python dictionary and string helpers -/

/-- Association-list lookup, modelling Python dictionary access by key. -/
def alLookup {α : Type} (k : String) : List (String × α) → Option α
  | [] => none
  | (k', v) :: rest => if k' = k then some v else alLookup k rest

/-- Association-list insert-or-update, modelling Python dictionary
assignment: updating a present key keeps its position, a new key is
appended at the end (Python dictionaries preserve insertion order). -/
def alUpsert {α : Type} (k : String) (v : α) : List (String × α) → List (String × α)
  | [] => [(k, v)]
  | (k', v') :: rest => if k' = k then (k, v) :: rest else (k', v') :: alUpsert k v rest

/-- Does the second list start with the first one (helper for the
substring test below). -/
def leadsWith {α : Type} [DecidableEq α] : List α → List α → Bool
  | [], _ => true
  | _ :: _, [] => false
  | n :: ns, h :: hs => n == h && leadsWith ns hs

/-- Helper for `pyIn`: does `needle` occur at any position of the list. -/
def subOfAux {α : Type} [DecidableEq α] (needle : List α) : List α → Bool
  | [] => leadsWith needle []
  | h :: t => leadsWith needle (h :: t) || subOfAux needle t

/-- Python's substring containment test, `needle in hay`. -/
def pyIn (needle hay : String) : Bool := subOfAux needle.toList hay.toList

/-- Python `str.replace` for a single-character pattern and replacement,
which acts characterwise. -/
def replaceChar (a b : Char) (s : String) : String :=
  String.mk (s.toList.map fun c => if c = a then b else c)

/-- Python `str.lower()` on the ASCII range, characterwise; the
stop words it is compared against are all ASCII. -/
def pyLower (s : String) : String := String.mk (s.toList.map Char.toLower)

/-! ## ProgressStore data model (progress JSON file)

The persisted progress record is a JSON object keyed by family name;
each family entry carries a status string and a `details` object whose
`motif_reports` sub-dictionary maps a motif key to the per-work-item
record written by `save_motif_progress` (source lines 238-285). -/

/-- One persisted motif-report (work item) record inside a family entry.
The source also stores a timestamp and a free-form `details` dictionary;
no claim refers to those fields, so they are not modelled. -/
structure MotifReport where
  tf_name : String
  species_name : String
  status : String
deriving DecidableEq

/-- The `details` sub-dictionary of a family entry: the nested
`motif_reports` dictionary, `none` when the key is absent. -/
structure FamilyDetails where
  motif_reports : Option (List (String × MotifReport))
deriving DecidableEq

/-- One family entry of the persisted progress record. -/
structure FamilyEntry where
  status : String
  details : FamilyDetails
deriving DecidableEq

/-- The persisted progress record: a dictionary keyed by family name. -/
abbrev ProgressData : Type := List (String × FamilyEntry)

/-- The optional `details` argument of `save_motif_progress`; only its
`tf_family` key is read by the function (line 254). -/
structure SaveDetails where
  tf_family : Option String
deriving DecidableEq

/-- Line 254: `details.get("tf_family", tf_name) if details else tf_name`. -/
def familyOf (details : Option SaveDetails) (tf_name : String) : String :=
  match details with
  | none => tf_name
  | some d => d.tf_family.getD tf_name

/-- Line 251: the motif-report key,
`f"{tf_name}_{species_name}".replace(" ", "_")`.  Note that the first
argument is the `tf_name` parameter of `save_motif_progress`, which the
caller binds to the individual TF name (lines 685-704). -/
def motifKey (tf_name species_name : String) : String :=
  replaceChar ' ' '_' (tf_name ++ "_" ++ species_name)

/-- Shallow embedding of `save_motif_progress` (lines 238-285), acting on
the in-memory progress dictionary that the source reads from and writes
back to the progress file around this update.  A missing family entry is
created with status `"in_progress"` and an empty `motif_reports`
dictionary (lines 255-264); the motif record is upserted under
`motifKey` (line 267); the family status is set to `"completed"` when
every stored motif report has status `"completed"` (lines 276-278) and
is otherwise left unchanged — the source has no else-branch there. -/
def save_motif_progress (progress_data : ProgressData)
    (tf_name species_name status : String) (details : Option SaveDetails) : ProgressData :=
  let motif_key := motifKey tf_name species_name
  let tf_family := familyOf details tf_name
  let entry : FamilyEntry :=
    (alLookup tf_family progress_data).getD ⟨"in_progress", ⟨some []⟩⟩
  let reports := entry.details.motif_reports.getD []
  let reports2 := alUpsert motif_key ⟨tf_name, species_name, status⟩ reports
  let status2 :=
    if reports2.all (fun p => p.2.status == "completed") then "completed" else entry.status
  alUpsert tf_family ⟨status2, ⟨some reports2⟩⟩ progress_data

/-- The status recorded for family `fam`, if the family is present. -/
def familyStatus (d : ProgressData) (fam : String) : Option String :=
  (alLookup fam d).map (·.status)

/-- The status of the motif report stored under key `k` in family `fam`. -/
def motifStatus (d : ProgressData) (fam k : String) : Option String :=
  match alLookup fam d with
  | none => none
  | some e => (alLookup k (e.details.motif_reports.getD [])).map (·.status)

/-! ## Checkpoint loading (`load_progress`, lines 182-205) -/

/-- The exceptions the embedded code distinguishes. -/
inductive PyErr where
  | ioError
  | jsonDecodeError
  | zeroDivision
deriving DecidableEq

/-- Outcome of opening and reading a text file: the file may be absent,
opening or reading it may raise, or it yields the full text. -/
inductive FileRead where
  | missing
  | unreadable
  | text (s : String)
deriving DecidableEq

/-- State of the progress JSON file as observed through `json.load`:
absent, unreadable, readable but not valid JSON, or parsed into progress
data.  The JSON parser is standard-library code, modelled by its
outcome. -/
inductive ProgressFile where
  | missing
  | unreadable
  | corrupt
  | parsed (d : ProgressData)
deriving DecidableEq

/-- The `Path.exists()` guard on a backing file. -/
def FileRead.hasFile : FileRead → Bool
  | .missing => false
  | _ => true

/-- Reading the whole ledger file, which can raise. -/
def FileRead.readAll : FileRead → Except PyErr String
  | .missing => .error .ioError
  | .unreadable => .error .ioError
  | .text s => .ok s

/-- The `exists()` guard on the progress file. -/
def ProgressFile.hasFile : ProgressFile → Bool
  | .missing => false
  | _ => true

/-- Opening and `json.load`-ing the progress file, which can raise on
an unreadable file or on invalid JSON. -/
def ProgressFile.jsonLoad : ProgressFile → Except PyErr ProgressData
  | .missing => .error .ioError
  | .unreadable => .error .ioError
  | .corrupt => .error .jsonDecodeError
  | .parsed d => .ok d

/-- Lines 190-191: the completed-TF ledger parse,
`set(line.strip() for line in f if line.strip())` — the set of nonempty
stripped lines, modelled as a first-occurrence-deduplicated list. -/
def ledgerLines (s : String) : List String :=
  (((s.splitOn "\n").map String.trim).filter (fun l => l != "")).dedup

/-- Shallow embedding of `load_progress` (lines 182-205).  Each backing
file is read under its own try/except whose handler only logs a warning,
so a failing read degrades that component to its empty initial value;
the result type records whether any exception escapes the function. -/
def load_progress (completedFile : FileRead) (progressFile : ProgressFile) :
    Except PyErr (List String × ProgressData) := do
  let completed_tfs : List String ←
    if completedFile.hasFile then
      match completedFile.readAll.map ledgerLines with
      | .ok v => pure v
      | .error _ => pure []
    else pure []
  let progress_data : ProgressData ←
    if progressFile.hasFile then
      match progressFile.jsonLoad with
      | .ok v => pure v
      | .error _ => pure []
    else pure []
  pure (completed_tfs, progress_data)

/-! ## Resume summary (`get_resume_summary`, lines 343-403) -/

/-- Shallow embedding of `get_resume_summary`.  Line 345 computes the
remaining list by an order-preserving comprehension over the discovered
names.  The logging block (lines 347-401) runs whenever the completed
set or the progress data is non-empty (Python truthiness); its only
computation that can raise on well-typed inputs is line 352,
`progress_pct = len(completed_tfs) / len(all_tf_names) * 100`, a
`ZeroDivisionError` when the discovered list is empty.  The remaining
logging is side-effect free on the result. -/
def get_resume_summary (completed_tfs : List String) (all_tf_names : List String)
    (progress_data : ProgressData) : Except PyErr (List String) :=
  let remaining := all_tf_names.filter (fun tf => !(completed_tfs.contains tf))
  if completed_tfs ≠ [] ∨ progress_data ≠ [] then
    if all_tf_names.length = 0 then .error .zeroDivision
    else .ok remaining
  else .ok remaining

/-! ## Per-family item loop (`process_tf_species_page`, lines 592-730)

The species-page scan (lines 600-652) turns the page's view links into a
list of typed candidates; the loop (lines 658-721) then drives every one
of those candidates through the crawl state machine.  The loop reads no
progress record — the function's only parameter besides the implicit
browser state is the family name. -/

/-- One discovered view link (lines 638-647): the identity fields parsed
from the species table row and from the report URL. -/
structure ViewLink where
  tf_name : String
  tf_family : String
  tf_id : Nat
  species_name : String
  species_id : Nat
  href : String
deriving DecidableEq

/-- How the browser behaves for one item of the per-family loop: the
navigation to the report page (line 668) may raise;
`process_motif_report_page` itself catches its own exceptions and
returns a classification string; and going back to the species page
(line 708) may raise after the outcome was already recorded. -/
inductive ItemBehavior where
  | navRaises
  | ok (result : String)
  | okThenBackRaises (result : String)
deriving DecidableEq

/-- One call to `save_motif_progress` made by the per-family loop. -/
structure RecorderCall where
  tf_name : String
  species_name : String
  status : String
  tf_family : String
deriving DecidableEq

/-- One entry appended to the `family_results` list that feeds the
per-family log. -/
structure FamilyResult where
  tf_name : String
  species_name : String
  status : String
deriving DecidableEq

/-- Lines 683-704: the status string the loop hands to
`save_motif_progress` for a given `process_motif_report_page` result —
`"completed"` and `"no_export"` pass through and every other result
falls into the else-branch, which records `"no_data"`. -/
def recordedStatus (result : String) : String :=
  if result = "completed" then "completed"
  else if result = "no_export" then "no_export"
  else "no_data"

/-- Shallow embedding of the per-item loop of `process_tf_species_page`
(lines 658-721): given the discovered view links, each paired with its
browser behaviour, it returns the report-page navigations attempted, the
`save_motif_progress` calls made, and the `family_results` entries, all
in loop order.  An exception inside an iteration is caught at the item
boundary (lines 711-721): it appends a `"failed"` family result and the
loop continues with the next item. -/
def processItems : List (ViewLink × ItemBehavior) →
    List ViewLink × List RecorderCall × List FamilyResult
  | [] => ([], [], [])
  | (v, b) :: rest =>
    let done := processItems rest
    match b with
    | .navRaises =>
        (v :: done.1, done.2.1, ⟨v.tf_name, v.species_name, "failed"⟩ :: done.2.2)
    | .ok r =>
        (v :: done.1,
          ⟨v.tf_name, v.species_name, recordedStatus r, v.tf_family⟩ :: done.2.1,
          ⟨v.tf_name, v.species_name, r⟩ :: done.2.2)
    | .okThenBackRaises r =>
        (v :: done.1,
          ⟨v.tf_name, v.species_name, recordedStatus r, v.tf_family⟩ :: done.2.1,
          ⟨v.tf_name, v.species_name, r⟩ :: ⟨v.tf_name, v.species_name, "failed"⟩ :: done.2.2)

/-! ## Motif-report classification (`process_motif_report_page`, lines 732-989) -/

/-- The actions the download stages of the state machine can perform
after the export-marker guard. -/
inductive CrawlAction where
  | clickExportTab
  | locateDownloadControl
  | clickDownloadControl
  | waitForDownload
deriving DecidableEq

/-- Lines 743-749: presence of the two gating indicators, each a
substring test on the page source. -/
def exportIndicators (page_source : String) : Bool × Bool :=
  (pyIn "Export data" page_source, pyIn "csrfmiddlewaretoken" page_source)

/-- Shallow embedding of the classification stage of
`process_motif_report_page`.  The `downstream` argument stands for the
download stages of lines 760-985 (export-tab click, the ordered link
resolution strategies, the download wait), which the source reaches only
past the marker guard of lines 756-758; the guard itself returns
`"no_export"` at once, performing none of those actions. -/
def process_motif_report_page (page_source : String)
    (downstream : String × List CrawlAction) : String × List CrawlAction :=
  if (exportIndicators page_source).1 && (exportIndicators page_source).2 then downstream
  else ("no_export", [])

/-! ## Family-link candidate filter (lines 131-180 and 430-473)

`_get_current_tf_links` and `find_and_click_tf_family_links` contain the
same filter over a link's stripped visible text: a length bound, a fixed
stop-word set, and the shape regex
`^[A-Za-z][A-Za-z0-9/]{1,15}$`.  The filter is modelled as the predicate
on the stripped text `text = link.text.strip()`. -/

/-- The fixed stop-word set of navigation words (lines 147-166). -/
def skip_words : List String :=
  ["browse", "search", "about", "home", "view", "more", "here", "feedback",
   "stats", "links", "cite", "contribute", "compare", "register", "login",
   "quick", "help", "contact"]

/-- The regex class `[A-Za-z]`. -/
def isAsciiLetter (c : Char) : Bool :=
  ('A' ≤ c && c ≤ 'Z') || ('a' ≤ c && c ≤ 'z')

/-- The regex class `[A-Za-z0-9/]`. -/
def isNameTailChar (c : Char) : Bool :=
  isAsciiLetter c || ('0' ≤ c && c ≤ '9') || c = '/'

/-- The anchored regex `^[A-Za-z][A-Za-z0-9/]{1,15}$` of line 171 and
line 467, on a stripped string (so the end anchor cannot sit before a
trailing newline): one leading letter followed by one to fifteen
alphanumeric-or-slash characters. -/
def tfNameShape (text : String) : Bool :=
  match text.toList with
  | [] => false
  | c :: rest => isAsciiLetter c && 1 ≤ rest.length && rest.length ≤ 15
      && rest.all isNameTailChar

/-- The candidate filter of lines 143-171 (identical at lines 439-467):
skip names shorter than 2 or longer than 20 characters, skip stop words
by lowercased comparison, then accept exactly the names matching the
shape regex. -/
def tfLinkAccept (text : String) : Bool :=
  if text.length < 2 || text.length > 20 then false
  else if skip_words.contains (pyLower text) then false
  else tfNameShape text

/-- The name-shape predicate as the claim words it: starts with a letter
followed by at most 16 further characters, each alphanumeric or slash.
This definition is written from the claim's words, for comparison with
the source regex `tfNameShape`. -/
def claimNameShape (text : String) : Bool :=
  match text.toList with
  | [] => false
  | c :: rest => isAsciiLetter c && rest.length ≤ 16 && rest.all isNameTailChar

/-! ## Artifact filenames (`save_psfm_content`, lines 1022-1073)

The filename is built from regex-sanitized identity fields, the two
numeric ids, and the first eight hexadecimal characters of the MD5
digest of the content.  MD5 is implemented below over byte lists, all
word arithmetic taken modulo `2 ^ 32`. -/

/-- Python's `\w` on the ASCII range, `[A-Za-z0-9_]`.  The names the
source sanitizes are scraped from an ASCII site; only the ASCII fragment
of the class is modelled, and the path separators `'/'` and `'\\'` are
non-word characters in either reading. -/
def pyWordChar (c : Char) : Bool := c.isAlphanum || c = '_'

/-- Python's `\s` on the ASCII range. -/
def pySpaceChar (c : Char) : Bool :=
  c = ' ' || c = '\t' || c = '\n' || c = '\r' || c = '\x0b' || c = '\x0c'

/-- Line 1032/1033: `re.sub(r"[^\w\-_]", "_", s)` — every character
outside the keep class becomes an underscore, characterwise. -/
def sanitizeField (s : String) : String :=
  String.mk (s.toList.map fun c =>
    if pyWordChar c || c = '-' || c = '_' then c else '_')

/-- Line 1034: `re.sub(r"[^\w\-_\s]", "_", s).replace(" ", "_")` — the
whitespace class is part of the keep class of the substitution, and only
the plain space character is then turned into an underscore. -/
def sanitizeSpecies (s : String) : String :=
  String.mk ((s.toList.map fun c =>
    if pyWordChar c || c = '-' || c = '_' || pySpaceChar c then c else '_').map
    fun c => if c = ' ' then '_' else c)

/-- One decimal digit character. -/
def decDigit : Nat → Char
  | 0 => '0' | 1 => '1' | 2 => '2' | 3 => '3' | 4 => '4'
  | 5 => '5' | 6 => '6' | 7 => '7' | 8 => '8' | _ => '9'

/-- Fuel-driven decimal writer; the fuel only needs to exceed the digit
count, which `natToDec` arranges. -/
def natToDecF : Nat → Nat → List Char
  | 0, _ => []
  | fuel + 1, n =>
    if n < 10 then [decDigit n] else natToDecF fuel (n / 10) ++ [decDigit (n % 10)]

/-- Decimal digits of `n`, most significant first: Python `str()` of a
nonnegative int, as used by the f-string for the two numeric ids. -/
def natToDec (n : Nat) : List Char := natToDecF (n + 1) n

/-- One lowercase hexadecimal digit character. -/
def hexDigit : Nat → Char
  | 0 => '0' | 1 => '1' | 2 => '2' | 3 => '3' | 4 => '4' | 5 => '5'
  | 6 => '6' | 7 => '7' | 8 => '8' | 9 => '9' | 10 => 'a' | 11 => 'b'
  | 12 => 'c' | 13 => 'd' | 14 => 'e' | _ => 'f'

/-- The MD5 word modulus `2 ^ 32`. -/
def M32 : Nat := 4294967296

/-- 32-bit left rotation of a word. -/
def rotl32 (x s : Nat) : Nat := ((x <<< s) % M32) ||| (x >>> (32 - s))

/-- 32-bit complement. -/
def not32 (x : Nat) : Nat := x ^^^ 4294967295

/-- The MD5 round-constant table, `floor(abs(sin(i + 1)) * 2 ^ 32)`. -/
def md5K : List Nat :=
  [3614090360, 3905402710, 606105819, 3250441966, 4118548399, 1200080426,
   2821735955, 4249261313, 1770035416, 2336552879, 4294925233, 2304563134,
   1804603682, 4254626195, 2792965006, 1236535329, 4129170786, 3225465664,
   643717713, 3921069994, 3593408605, 38016083, 3634488961, 3889429448,
   568446438, 3275163606, 4107603335, 1163531501, 2850285829, 4243563512,
   1735328473, 2368359562, 4294588738, 2272392833, 1839030562, 4259657740,
   2763975236, 1272893353, 4139469664, 3200236656, 681279174, 3936430074,
   3572445317, 76029189, 3654602809, 3873151461, 530742520, 3299628645,
   4096336452, 1126891415, 2878612391, 4237533241, 1700485571, 2399980690,
   4293915773, 2240044497, 1873313359, 4264355552, 2734768916, 1309151649,
   4149444226, 3174756917, 718787259, 3951481745]

/-- The MD5 per-round shift table. -/
def md5S : List Nat :=
  [7, 12, 17, 22, 7, 12, 17, 22, 7, 12, 17, 22, 7, 12, 17, 22,
   5, 9, 14, 20, 5, 9, 14, 20, 5, 9, 14, 20, 5, 9, 14, 20,
   4, 11, 16, 23, 4, 11, 16, 23, 4, 11, 16, 23, 4, 11, 16, 23,
   6, 10, 15, 21, 6, 10, 15, 21, 6, 10, 15, 21, 6, 10, 15, 21]

/-- One MD5 round on the state `(a, b, c, d)` with the message words of
the current chunk. -/
def md5Round (M : List Nat) (st : Nat × Nat × Nat × Nat) (i : Nat) :
    Nat × Nat × Nat × Nat :=
  let a := st.1
  let b := st.2.1
  let c := st.2.2.1
  let d := st.2.2.2
  let f :=
    if i < 16 then (b &&& c) ||| (not32 b &&& d)
    else if i < 32 then (d &&& b) ||| (not32 d &&& c)
    else if i < 48 then b ^^^ c ^^^ d
    else c ^^^ (b ||| not32 d)
  let g :=
    if i < 16 then i
    else if i < 32 then (5 * i + 1) % 16
    else if i < 48 then (3 * i + 5) % 16
    else (7 * i) % 16
  let f2 := (f + a + md5K.getD i 0 + M.getD g 0) % M32
  (d, (b + rotl32 f2 (md5S.getD i 0)) % M32, b, c)

/-- Little-endian byte decomposition of `n` into `k` bytes. -/
def leBytes : Nat → Nat → List Nat
  | 0, _ => []
  | k + 1, n => (n % 256) :: leBytes k (n / 256)

/-- The sixteen little-endian message words of one 64-byte chunk. -/
def md5ChunkWords (chunk : List Nat) : List Nat :=
  (List.range 16).map fun j =>
    chunk.getD (4 * j) 0 + 256 * chunk.getD (4 * j + 1) 0
      + 65536 * chunk.getD (4 * j + 2) 0 + 16777216 * chunk.getD (4 * j + 3) 0

/-- MD5 compression of one 64-byte chunk into the running state. -/
def md5Chunk (st : Nat × Nat × Nat × Nat) (chunk : List Nat) :
    Nat × Nat × Nat × Nat :=
  let M := md5ChunkWords chunk
  let r := (List.range 64).foldl (md5Round M) st
  ((st.1 + r.1) % M32, (st.2.1 + r.2.1) % M32,
   (st.2.2.1 + r.2.2.1) % M32, (st.2.2.2 + r.2.2.2) % M32)

/-- MD5 padding: the `0x80` byte, zeros up to 56 modulo 64, then the
bit length as eight little-endian bytes. -/
def md5Pad (msg : List Nat) : List Nat :=
  msg ++ [128] ++ List.replicate ((119 - msg.length % 64) % 64) 0
    ++ leBytes 8 ((msg.length * 8) % (2 ^ 64))

/-- Fuel-driven chunk splitter; every step consumes at least one byte,
so fuel equal to the list length suffices. -/
def toChunksF : Nat → List Nat → List (List Nat)
  | 0, _ => []
  | _, [] => []
  | fuel + 1, h :: t => ((h :: t).take 64) :: toChunksF fuel ((h :: t).drop 64)

/-- Split a byte list into 64-byte chunks. -/
def toChunks (l : List Nat) : List (List Nat) := toChunksF l.length l

/-- The final MD5 state over a whole message. -/
def md5Words (msg : List Nat) : Nat × Nat × Nat × Nat :=
  (toChunks (md5Pad msg)).foldl md5Chunk
    (1732584193, 4023233417, 2562383102, 271733878)

/-- The sixteen digest bytes of MD5. -/
def md5Bytes (msg : List Nat) : List Nat :=
  leBytes 4 (md5Words msg).1 ++ leBytes 4 (md5Words msg).2.1
    ++ leBytes 4 (md5Words msg).2.2.1 ++ leBytes 4 (md5Words msg).2.2.2

/-- Two hexadecimal characters of one digest byte. -/
def hexByte (b : Nat) : List Char := [hexDigit (b / 16 % 16), hexDigit (b % 16)]

/-- UTF-8 bytes of a string, `content.encode()`. -/
def strBytes (s : String) : List Nat :=
  ((s.toList.map String.utf8EncodeChar).flatten).map UInt8.toNat

/-- Line 1037: `hashlib.md5(psfm_content.encode()).hexdigest()[:8]`. -/
def md5Hex8 (s : String) : String :=
  String.mk ((((md5Bytes (strBytes s)).map hexByte).flatten).take 8)

/-- Lines 1040-1043: the artifact filename,
`f"{safe_tf_family}_{safe_tf_name}_{safe_species_name}_TF{tf_id}_SP{species_id}_selenium_{content_hash}.txt"`. -/
def save_filename (v : ViewLink) (psfm_content : String) : String :=
  sanitizeField v.tf_family ++ "_" ++ sanitizeField v.tf_name ++ "_"
    ++ sanitizeSpecies v.species_name ++ "_TF" ++ String.mk (natToDec v.tf_id)
    ++ "_SP" ++ String.mk (natToDec v.species_id) ++ "_selenium_"
    ++ md5Hex8 psfm_content ++ ".txt"

/-- Line 1064: the metadata sidecar filename, `f"{filename}.json"`. -/
def metadata_filename (v : ViewLink) (psfm_content : String) : String :=
  save_filename v psfm_content ++ ".json"

/-! ## Shared lemmas -/

/-- Looking up the key that was just upserted yields the new value. -/
theorem alLookup_alUpsert_self {α : Type} (k : String) (v : α) :
    ∀ l : List (String × α), alLookup k (alUpsert k v l) = some v := by
  intro l
  induction l with
  | nil => simp [alUpsert, alLookup]
  | cons hd tl ih =>
    by_cases h : hd.1 = k
    · simp [alUpsert, alLookup, h]
    · simpa [alUpsert, alLookup, h] using ih

/-- Strings with equal character data are equal. -/
theorem string_data_inj {s t : String} (h : s.data = t.data) : s = t := by
  cases s
  cases t
  exact congrArg String.mk h

/-- The recorded status is always one of the three values the loop
writes. -/
theorem recordedStatus_cases (r : String) :
    recordedStatus r = "completed" ∨ recordedStatus r = "no_export" ∨
      recordedStatus r = "no_data" := by
  unfold recordedStatus
  split
  · exact Or.inl rfl
  · split
    · exact Or.inr (Or.inl rfl)
    · exact Or.inr (Or.inr rfl)

/-! ## Claim C1: the family completion invariant -/

/-- C1, counterexample: `save_motif_progress` never downgrades a family
status.  Recording the failed work item XylS/Pseudomonas putida into a
family already persisted as `"completed"` leaves the family status at
`"completed"` while the newly recorded work item has status `"failed"`,
so the persisted family status is not equivalent to all recorded work
items being completed. -/
theorem save_motif_progress_keeps_completed_cex :
    (let st := save_motif_progress
      [("AraC/XylS",
        ⟨"completed",
          ⟨some [("AraC_Escherichia_coli", ⟨"AraC", "Escherichia coli", "completed"⟩)]⟩⟩)]
      "XylS" "Pseudomonas putida" "failed" (some ⟨some "AraC/XylS"⟩)
    familyStatus st "AraC/XylS" = some "completed" ∧
      motifStatus st "AraC/XylS" "XylS_Pseudomonas_putida" = some "failed") := by
  decide

/-- C1, amended: after every `save_motif_progress` call the owning
family's status is `"completed"` if every recorded work item under it is
completed, and otherwise it is simply the status the family had before
the call (`"in_progress"` for a freshly created family) — the function
upgrades but never downgrades, so a family already persisted as
completed keeps that status even when a non-completed work item is
recorded into it. -/
theorem save_motif_progress_status_rule
    (d : ProgressData) (tf sp st : String) (det : Option SaveDetails) :
    ∃ reports : List (String × MotifReport),
      alLookup (motifKey tf sp) reports = some ⟨tf, sp, st⟩ ∧
      alLookup (familyOf det tf) (save_motif_progress d tf sp st det) =
        some ⟨if reports.all (fun p => p.2.status == "completed") then "completed"
              else ((alLookup (familyOf det tf) d).getD
                ⟨"in_progress", ⟨some []⟩⟩).status,
              ⟨some reports⟩⟩ := by
  refine ⟨alUpsert (motifKey tf sp) ⟨tf, sp, st⟩
      (((alLookup (familyOf det tf) d).getD
        ⟨"in_progress", ⟨some []⟩⟩).details.motif_reports.getD []),
    alLookup_alUpsert_self _ _ _, ?_⟩
  unfold save_motif_progress
  exact alLookup_alUpsert_self _ _ _

/-! ## Claim C4: the work-item identity key -/

/-- C4, counterexample: the identity key is built from the individual TF
name passed as `tf_name`, not from the owning family's name.  Recording
AraC/Escherichia coli under family AraC/XylS stores the record under
`"AraC_Escherichia_coli"`, and no record exists under the
family-based key `"AraC/XylS_Escherichia_coli"`. -/
theorem motif_key_not_family_based_cex :
    (let st := save_motif_progress [] "AraC" "Escherichia coli" "completed"
      (some ⟨some "AraC/XylS"⟩)
    motifStatus st "AraC/XylS" "AraC_Escherichia_coli" = some "completed" ∧
      motifStatus st "AraC/XylS" "AraC/XylS_Escherichia_coli" = none) := by
  decide

/-- After every `save_motif_progress` call, the motif report stored in
the owning family under the freshly written key carries the recorded
status. -/
theorem motifStatus_save
    (d : ProgressData) (tf sp st : String) (det : Option SaveDetails) :
    motifStatus (save_motif_progress d tf sp st det) (familyOf det tf)
      (motifKey tf sp) = some st := by
  simp [motifStatus, save_motif_progress, alLookup_alUpsert_self]

/-- C4, amended: the work item is stored in the owning family's record
under the key built from the individual TF name and the species name,
`(tf_name ++ "_" ++ species_name)` with spaces replaced by underscores;
the key is a deterministic function of those two names, hence stable
across runs, but it coincides with the family-based key only when the
individual TF name equals the family name. -/
theorem motif_key_individual_name_rule
    (d : ProgressData) (tf sp st : String) (det : Option SaveDetails) :
    motifStatus (save_motif_progress d tf sp st det) (familyOf det tf)
      (replaceChar ' ' '_' (tf ++ "_" ++ sp)) = some st := by
  simpa [motifKey] using motifStatus_save d tf sp st det

/-! ## Claims C2 and C3: the per-family loop -/

/-- The AraC/Escherichia coli view link of the end-to-end scenario. -/
def araCLink : ViewLink :=
  ⟨"AraC", "AraC/XylS", 35, "Escherichia coli", 179, "/report/35/179/"⟩

/-- The XylS/Pseudomonas putida view link of the end-to-end scenario. -/
def xylSLink : ViewLink :=
  ⟨"XylS", "AraC/XylS", 36, "Pseudomonas putida", 180, "/report/36/180/"⟩

/-- C2, counterexample: resume inside a family is not fine-grained.  In
the scenario where run one recorded AraC/Escherichia coli as completed,
the second run's per-family loop — which takes no progress record at
all, exactly as `process_tf_species_page` has no progress parameter —
still navigates to both discovered items and re-records AraC/Escherichia
coli, instead of processing only XylS/Pseudomonas putida. -/
theorem second_run_reprocesses_completed_item_cex :
    (let run1 := save_motif_progress [] "AraC" "Escherichia coli" "completed"
      (some ⟨some "AraC/XylS"⟩)
    let run2 := processItems [(araCLink, .ok "completed"), (xylSLink, .ok "completed")]
    motifStatus run1 "AraC/XylS" "AraC_Escherichia_coli" = some "completed" ∧
      run2.1 = [araCLink, xylSLink] ∧
      run2.2.1.map (·.species_name) = ["Escherichia coli", "Pseudomonas putida"] ∧
      run2.2.1.map (·.species_name) ≠ ["Pseudomonas putida"]) := by
  decide

/-- C2, amended: resume granularity is family-level only.  The
per-family loop navigates to every discovered view link of the family,
in discovery order, regardless of any previously persisted per-item
progress — the loop is a function of the discovered items alone, so
previously completed items of a partially processed family are
re-attempted on the next run. -/
theorem processItems_attempts_every_item (items : List (ViewLink × ItemBehavior)) :
    (processItems items).1 = items.map Prod.fst := by
  induction items with
  | nil => rfl
  | cons hd tl ih =>
    obtain ⟨v, b⟩ := hd
    cases b <;> simp [processItems, ih]

/-- C3, counterexample: an item whose report-page navigation raises is
caught at the item boundary and logged as `"failed"` in the family
results, but no outcome at all is written through the work-item progress
recorder; and an item whose processing returns `"failed"` is persisted
with status `"no_data"`, which is none of the three terminal
classifications named by the claim. -/
theorem failed_item_persistence_cex :
    (processItems [(araCLink, .navRaises)]).2.1 = [] ∧
      (processItems [(araCLink, .navRaises)]).2.2.map (·.status) = ["failed"] ∧
      (processItems [(xylSLink, .ok "failed")]).2.1.map (·.status) = ["no_data"] ∧
      ¬ "no_data" ∈ ["completed", "no_export", "failed"] := by
  decide

/-- C3, amended: every item whose navigation does not raise gets exactly
one outcome written through the work-item progress recorder, with status
`"completed"`, `"no_export"` or `"no_data"` (a failed download is
recorded as `"no_data"`); an item whose navigation raises gets no
recorder call but is tracked as `"failed"` in the family results, and in
every case the loop continues, leaving at least one family-results entry
per attempted item. -/
theorem processItems_outcome_rule (items : List (ViewLink × ItemBehavior)) :
    (processItems items).2.1 = (items.filterMap fun p =>
      match p.2 with
      | .navRaises => none
      | .ok r => some ⟨p.1.tf_name, p.1.species_name, recordedStatus r, p.1.tf_family⟩
      | .okThenBackRaises r =>
          some ⟨p.1.tf_name, p.1.species_name, recordedStatus r, p.1.tf_family⟩) ∧
    (∀ c ∈ (processItems items).2.1,
      c.status = "completed" ∨ c.status = "no_export" ∨ c.status = "no_data") ∧
    items.length ≤ (processItems items).2.2.length := by
  induction items with
  | nil => exact ⟨rfl, by simp [processItems], by simp [processItems]⟩
  | cons hd tl ih =>
    obtain ⟨v, b⟩ := hd
    obtain ⟨ih1, ih2, ih3⟩ := ih
    cases b with
    | navRaises =>
      refine ⟨by simpa [processItems] using ih1, by simpa [processItems] using ih2, ?_⟩
      simp only [processItems, List.length_cons]
      omega
    | ok r =>
      refine ⟨by simpa [processItems] using ih1, ?_, ?_⟩
      · intro c hc
        simp [processItems] at hc
        rcases hc with hc | hc
        · subst hc
          exact recordedStatus_cases r
        · exact ih2 c hc
      · simp only [processItems, List.length_cons]
        omega
    | okThenBackRaises r =>
      refine ⟨by simpa [processItems] using ih1, ?_, ?_⟩
      · intro c hc
        simp [processItems] at hc
        rcases hc with hc | hc
        · subst hc
          exact recordedStatus_cases r
        · exact ih2 c hc
      · simp only [processItems, List.length_cons]
        omega

/-! ## Claim C5: the remaining-work computation -/

/-- C5, counterexample: `get_resume_summary` is not total over all
inputs.  With a nonempty completed set and an empty discovery list the
logging block computes `len(completed) / len(all)` and raises
`ZeroDivisionError` instead of returning the (empty) ordered set
difference. -/
theorem get_resume_summary_zero_division_cex :
    get_resume_summary ["AraC/XylS"] [] [] = Except.error PyErr.zeroDivision ∧
      get_resume_summary ["AraC/XylS"] [] [] ≠ Except.ok [] := by
  refine ⟨rfl, fun h => ?_⟩
  rw [show get_resume_summary ["AraC/XylS"] [] [] = Except.error PyErr.zeroDivision
    from rfl] at h
  exact Except.noConfusion h

/-- C5, amended: whenever the discovered list is nonempty — or the
completed set and the progress data are both empty, so the logging block
is skipped — the function returns exactly the discovered names not in
the completed set, in their original discovery order, as a pure function
of its inputs; in the remaining degenerate case (empty discovery list
with a nonempty completed set or nonempty progress data) it raises
`ZeroDivisionError`. -/
theorem get_resume_summary_ordered_difference
    (completed_tfs all_tf_names : List String) (progress_data : ProgressData)
    (h : all_tf_names ≠ [] ∨ (completed_tfs = [] ∧ progress_data = [])) :
    get_resume_summary completed_tfs all_tf_names progress_data =
      Except.ok (all_tf_names.filter fun tf => !(completed_tfs.contains tf)) := by
  unfold get_resume_summary
  rcases h with h | ⟨h1, h2⟩
  · have hlen : all_tf_names.length ≠ 0 := by
      have := List.length_pos.mpr h
      omega
    split
    · simp [hlen]
    · rfl
  · subst h1
    subst h2
    simp

/-- C5, witness: the resume-correctness scenario — completed set
containing A and C, fresh discovery yielding A, B, C, D in that order —
returns exactly B then D. -/
theorem get_resume_summary_ordered_difference_witness :
    ((["A", "B", "C", "D"] : List String) ≠ [] ∨
      ((["A", "C"] : List String) = [] ∧ ([] : ProgressData) = [])) ∧
    get_resume_summary ["A", "C"] ["A", "B", "C", "D"] [] = Except.ok ["B", "D"] :=
  ⟨Or.inl (by decide),
    get_resume_summary_ordered_difference ["A", "C"] ["A", "B", "C", "D"] []
      (Or.inl (by decide))⟩

/-! ## Claim C6: the no-export guard -/

/-- C6: if either gating marker — the `"Export data"` affordance or the
`csrfmiddlewaretoken` security token — is missing from the page source,
the state machine returns `"no_export"` immediately with no download
actions at all; conversely, any executed download action implies both
markers were present. -/
theorem no_export_guard (page_source : String) (downstream : String × List CrawlAction) :
    ((exportIndicators page_source).1 = false ∨ (exportIndicators page_source).2 = false →
      process_motif_report_page page_source downstream = ("no_export", [])) ∧
    ((process_motif_report_page page_source downstream).2 ≠ [] →
      (exportIndicators page_source).1 = true ∧ (exportIndicators page_source).2 = true) := by
  unfold process_motif_report_page
  constructor
  · intro h
    rcases h with h | h <;> simp [h]
  · intro h
    by_cases h1 : (exportIndicators page_source).1 <;>
      by_cases h2 : (exportIndicators page_source).2 <;>
      simp_all

/-- C6, witness: a concrete report page carrying the PSFM and site_id
markers but neither gating marker is classified `"no_export"` with no
actions, even when the downstream stages would have attempted a
download. -/
theorem no_export_guard_witness :
    ((exportIndicators "<html>PSFM site_id motif report</html>").1 = false ∨
      (exportIndicators "<html>PSFM site_id motif report</html>").2 = false) ∧
    process_motif_report_page "<html>PSFM site_id motif report</html>"
      ("completed", [CrawlAction.clickExportTab, CrawlAction.clickDownloadControl,
        CrawlAction.waitForDownload]) = ("no_export", []) :=
  ⟨Or.inl (by decide),
    (no_export_guard "<html>PSFM site_id motif report</html>"
      ("completed", [CrawlAction.clickExportTab, CrawlAction.clickDownloadControl,
        CrawlAction.waitForDownload])).1 (Or.inl (by decide))⟩

/-! ## Claim C8: checkpoint loading never fails -/

/-- C8: for every state of the two backing files — missing, unreadable,
or holding corrupt content — `load_progress` returns normally, and the
component whose file is missing, unreadable or unparseable degrades to
its empty state. -/
theorem load_progress_never_fails (c : FileRead) (p : ProgressFile) :
    ∃ completed progress, load_progress c p = Except.ok (completed, progress) ∧
      (c = .missing ∨ c = .unreadable → completed = []) ∧
      (p = .missing ∨ p = .unreadable ∨ p = .corrupt → progress = []) := by
  cases c <;> cases p <;>
    exact ⟨_, _, rfl, by intro h; first | rfl | simp_all, by intro h; first | rfl | simp_all⟩

/-- C8, witness: an unreadable ledger next to a corrupt progress file
loads as the fully empty state. -/
theorem load_progress_never_fails_witness :
    (FileRead.unreadable = FileRead.missing ∨ FileRead.unreadable = FileRead.unreadable) ∧
    (ProgressFile.corrupt = ProgressFile.missing ∨
      ProgressFile.corrupt = ProgressFile.unreadable ∨
      ProgressFile.corrupt = ProgressFile.corrupt) ∧
    load_progress FileRead.unreadable ProgressFile.corrupt = Except.ok ([], []) := by
  obtain ⟨completed, progress, heq, hc, hp⟩ :=
    load_progress_never_fails FileRead.unreadable ProgressFile.corrupt
  refine ⟨Or.inr rfl, Or.inr (Or.inr rfl), ?_⟩
  rw [heq, hc (Or.inr rfl), hp (Or.inr (Or.inr rfl))]

/-! ## Claim C9: the family-candidate filter -/

/-- C9, counterexample: the source regex allows at most fifteen — not
sixteen — characters after the leading letter.  The seventeen-character
name `"Abcdefghijklmnopq"` satisfies every condition of the claim (its
length is within 2-20, it is not a stop word, and it is a letter
followed by sixteen alphanumeric characters) yet the filter excludes
it. -/
theorem tf_filter_sixteen_tail_cex :
    (2 ≤ ("Abcdefghijklmnopq" : String).length ∧
      ("Abcdefghijklmnopq" : String).length ≤ 20) ∧
    skip_words.contains (pyLower "Abcdefghijklmnopq") = false ∧
    claimNameShape "Abcdefghijklmnopq" = true ∧
    tfLinkAccept "Abcdefghijklmnopq" = false := by
  decide

/-- C9, amended: the filter accepts a candidate's stripped text exactly
when its length is within the 2-20 bounds, its lowercased form is not in
the stop-word set, and it consists of a letter followed by at least one
and at most fifteen further characters, each alphanumeric or slash
(total length at most sixteen). -/
theorem tf_filter_characterization (text : String) :
    tfLinkAccept text = true ↔
      (2 ≤ text.length ∧ text.length ≤ 20 ∧
        skip_words.contains (pyLower text) = false ∧
        ∃ c rest, text.toList = c :: rest ∧ isAsciiLetter c = true ∧
          1 ≤ rest.length ∧ rest.length ≤ 15 ∧
          ∀ x ∈ rest, isNameTailChar x = true) := by
  have hlen : text.length = text.toList.length := rfl
  unfold tfLinkAccept
  split_ifs with h1 h2
  · simp only [Bool.or_eq_true, decide_eq_true_eq] at h1
    constructor
    · intro hf
      exact absurd hf (by simp)
    · rintro ⟨ha, hb, -⟩
      omega
  · constructor
    · intro hf
      exact absurd hf (by simp)
    · rintro ⟨-, -, hc, -⟩
      exact absurd (h2.symm.trans hc) (by simp)
  · simp only [Bool.or_eq_true, decide_eq_true_eq, not_or, not_lt] at h1
    have h2' : skip_words.contains (pyLower text) = false := by
      simpa using h2
    unfold tfNameShape
    rcases htl : text.toList with - | ⟨c, rest⟩
    · rw [hlen, htl]
      simp
    · simp only [Bool.and_eq_true, decide_eq_true_eq, List.all_eq_true]
      constructor
      · rintro ⟨⟨⟨hc1, hr1⟩, hr15⟩, hall⟩
        refine ⟨?_, ?_, h2', c, rest, rfl, hc1, hr1, hr15, hall⟩ <;>
          · rw [hlen, htl, List.length_cons] at h1 ⊢
            omega
      · rintro ⟨-, -, -, c', rest', hceq, hc1, hr1, hr15, hall⟩
        rw [List.cons.injEq] at hceq
        obtain ⟨rfl, rfl⟩ := hceq
        exact ⟨⟨⟨hc1, hr1⟩, hr15⟩, hall⟩

/-! ## Claims C7 and C10: artifact filenames -/

/-- The character data of a constructed string is its character list. -/
theorem mk_data (l : List Char) : (String.mk l).data = l := rfl

/-- Every decimal digit character differs from both path separators. -/
theorem decDigit_ne (k : Nat) : decDigit k ≠ '/' ∧ decDigit k ≠ '\\' := by
  unfold decDigit
  split <;> exact ⟨by decide, by decide⟩

/-- Every hexadecimal digit character differs from both path
separators. -/
theorem hexDigit_ne (k : Nat) : hexDigit k ≠ '/' ∧ hexDigit k ≠ '\\' := by
  unfold hexDigit
  split <;> exact ⟨by decide, by decide⟩

/-- Every character written by the decimal writer is a digit character,
hence not a path separator. -/
theorem natToDecF_ne (fuel : Nat) :
    ∀ n : Nat, ∀ c ∈ natToDecF fuel n, c ≠ '/' ∧ c ≠ '\\' := by
  induction fuel with
  | zero =>
    intro n c hc
    simp [natToDecF] at hc
  | succ fuel ih =>
    intro n c hc
    unfold natToDecF at hc
    split at hc
    · simp only [List.mem_singleton] at hc
      subst hc
      exact decDigit_ne n
    · rw [List.mem_append] at hc
      rcases hc with hc | hc
      · exact ih _ c hc
      · simp only [List.mem_singleton] at hc
        subst hc
        exact decDigit_ne _

/-- Characters surviving the family and TF name sanitization are word
characters, dashes or underscores. -/
theorem sanitizeField_chars (s : String) :
    ∀ c ∈ (sanitizeField s).data, pyWordChar c = true ∨ c = '-' ∨ c = '_' := by
  intro c hc
  obtain ⟨x, -, hx⟩ := List.mem_map.mp hc
  rw [← hx]
  split
  · rename_i h
    simp only [Bool.or_eq_true, decide_eq_true_eq] at h
    tauto
  · exact Or.inr (Or.inr rfl)

/-- Characters surviving the species sanitization are word characters,
dashes, underscores, or non-space whitespace characters (the space
itself having been mapped to an underscore). -/
theorem sanitizeSpecies_chars (s : String) :
    ∀ c ∈ (sanitizeSpecies s).data,
      pyWordChar c = true ∨ c = '-' ∨ c = '_' ∨
        (pySpaceChar c = true ∧ c ≠ ' ') := by
  intro c hc
  obtain ⟨y, hy, hyc⟩ := List.mem_map.mp hc
  obtain ⟨x, -, hxy⟩ := List.mem_map.mp hy
  rw [← hyc]
  by_cases hsp : y = ' '
  · rw [if_pos hsp]
    exact Or.inr (Or.inr (Or.inl rfl))
  · rw [if_neg hsp]
    rw [← hxy] at hsp ⊢
    by_cases hx : (pyWordChar x || decide (x = '-') || decide (x = '_')
        || pySpaceChar x) = true
    · rw [if_pos hx] at hsp ⊢
      simp only [Bool.or_eq_true, decide_eq_true_eq] at hx
      rcases hx with ((h | h) | h) | h
      · exact Or.inl h
      · exact Or.inr (Or.inl h)
      · exact Or.inr (Or.inr (Or.inl h))
      · exact Or.inr (Or.inr (Or.inr ⟨h, hsp⟩))
    · rw [if_neg hx]
      exact Or.inr (Or.inr (Or.inl rfl))

/-- Every character of the truncated hexadecimal digest differs from
both path separators. -/
theorem md5Hex8_chars (s : String) :
    ∀ c ∈ (md5Hex8 s).data, c ≠ '/' ∧ c ≠ '\\' := by
  intro c hc
  have hc' : c ∈ ((md5Bytes (strBytes s)).map hexByte).flatten :=
    List.mem_of_mem_take hc
  obtain ⟨l, hl, hcl⟩ := List.mem_flatten.mp hc'
  obtain ⟨b, -, hb⟩ := List.mem_map.mp hl
  rw [← hb] at hcl
  simp only [hexByte, List.mem_cons, List.mem_singleton, List.not_mem_nil,
    or_false] at hcl
  rcases hcl with hcl | hcl <;> (subst hcl; exact hexDigit_ne _)

/-- A character of the sanitized family or TF fields is never a path
separator. -/
theorem sanitizeField_ne (s : String) :
    ∀ c ∈ (sanitizeField s).data, c ≠ '/' ∧ c ≠ '\\' := by
  intro c hc
  constructor <;> rintro rfl <;>
    rcases sanitizeField_chars s _ hc with h | h | h <;> simp [pyWordChar] at h

/-- A character of the sanitized species field is never a path
separator. -/
theorem sanitizeSpecies_ne (s : String) :
    ∀ c ∈ (sanitizeSpecies s).data, c ≠ '/' ∧ c ≠ '\\' := by
  intro c hc
  constructor <;> rintro rfl <;>
    rcases sanitizeSpecies_chars s _ hc with h | h | h | ⟨h, -⟩ <;>
      simp [pyWordChar, pySpaceChar] at h

/-- No character of an artifact filename is a path separator. -/
theorem save_filename_chars (v : ViewLink) (content : String) :
    ∀ c ∈ (save_filename v content).data, c ≠ '/' ∧ c ≠ '\\' := by
  intro c hc
  simp only [save_filename, String.data_append, List.append_assoc,
    List.mem_append, mk_data] at hc
  rcases hc with hc | hc | hc | hc | hc | hc | hc | hc | hc | hc | hc | hc
  · exact sanitizeField_ne _ _ hc
  · fin_cases hc
    exact ⟨by decide, by decide⟩
  · exact sanitizeField_ne _ _ hc
  · fin_cases hc
    exact ⟨by decide, by decide⟩
  · exact sanitizeSpecies_ne _ _ hc
  · fin_cases hc <;> exact ⟨by decide, by decide⟩
  · exact natToDecF_ne _ _ _ hc
  · fin_cases hc <;> exact ⟨by decide, by decide⟩
  · exact natToDecF_ne _ _ _ hc
  · fin_cases hc <;> exact ⟨by decide, by decide⟩
  · exact md5Hex8_chars _ _ hc
  · fin_cases hc <;> exact ⟨by decide, by decide⟩

/-- C10, counterexample: the claimed sanitization clause fails on
whitespace in the species field.  For a species name containing a tab,
the tab — a non-word character that is neither a dash nor an
underscore — survives every substitution and appears verbatim in the
artifact filename. -/
theorem save_filename_keeps_tab_cex :
    '\t' ∈ (save_filename
      ⟨"XylS", "AraC/XylS", 36, "Pseudomonas\tputida", 180, "/report/36/180/"⟩
      ">psfm").data ∧
    pyWordChar '\t' = false ∧ '\t' ≠ '-' ∧ '\t' ≠ '_' := by
  decide

/-- C10, amended: no artifact filename and no metadata sidecar filename
ever contains a path separator (`'/'` or `'\\'`), for every identity —
family, TF and species names and both numeric ids — and every content
string, so both files are always created directly inside the matrices
and metadata directories; sanitization replaces every non-word
non-dash non-underscore character of the family and TF fields, while in
the species field non-space whitespace is preserved verbatim. -/
theorem save_filename_no_path_separators (v : ViewLink) (content : String) :
    ('/' ∉ (save_filename v content).data ∧ '\\' ∉ (save_filename v content).data) ∧
      ('/' ∉ (metadata_filename v content).data ∧
        '\\' ∉ (metadata_filename v content).data) := by
  have hmeta : ∀ c ∈ (metadata_filename v content).data, c ≠ '/' ∧ c ≠ '\\' := by
    intro c hc
    simp only [metadata_filename, String.data_append, List.mem_append] at hc
    rcases hc with hc | hc
    · exact save_filename_chars v content c hc
    · fin_cases hc <;> exact ⟨by decide, by decide⟩
  refine ⟨⟨fun h => ?_, fun h => ?_⟩, fun h => ?_, fun h => ?_⟩
  · exact (save_filename_chars v content _ h).1 rfl
  · exact (save_filename_chars v content _ h).2 rfl
  · exact (hmeta _ h).1 rfl
  · exact (hmeta _ h).2 rfl

/-- The LexA/Escherichia coli view link used by the filename collision
counterexample. -/
def lexALink : ViewLink := ⟨"LexA", "LexA", 28, "Escherichia coli", 63, "/report/28/63/"⟩

/-- C7, counterexample: the filename embeds only the first eight
hexadecimal characters of the MD5 digest, and distinct contents can
collide on that truncation.  The two distinct contents below share the
digest prefix `4366b64b`, so saving them for the same identity produces
the same filename — the second save opens the same path and overwrites
the first file. -/
theorem save_filename_hash_collision_cex :
    (">motif\n38901" : String) ≠ ">motif\n58901" ∧
      save_filename lexALink ">motif\n38901" = save_filename lexALink ">motif\n58901" := by
  constructor
  · decide
  · decide

/-- C7, amended: the artifact filename is a deterministic function of
identity and content — saving identical content twice for the same
identity yields the same filename — and for a fixed identity two
contents receive the same filename exactly when their truncated
eight-character digests agree; distinct contents therefore receive
distinct filenames whenever their truncated digests differ, but a
truncated-digest collision produces the same filename and overwrites the
first file. -/
theorem save_filename_eq_iff_hash_eq (v : ViewLink) (c1 c2 : String) :
    save_filename v c1 = save_filename v c2 ↔ md5Hex8 c1 = md5Hex8 c2 := by
  constructor
  · intro h
    have hd : (save_filename v c1).data = (save_filename v c2).data := by rw [h]
    simp only [save_filename, String.data_append, List.append_assoc] at hd
    repeat replace hd := List.append_cancel_left hd
    exact string_data_inj (List.append_cancel_right hd)
  · intro h
    simp [save_filename, h]

end CollecTF
